import Mathlib

/-!
Verification development for the OrbitMeetAI frontend interaction core.

Shallow embedding of the two stateful engines of the repository:

* the dual-pane layout controller of `src/frontend/src/App.jsx`
  (resizable/collapsible analysis and chat panes with preferences
  persisted in `localStorage` under the keys `"chatbotWidth"` and
  `"chatbotVisible"`), and
* the searchable combobox of `src/frontend/src/components/SearchableSelect.jsx`
  (type-ahead filtering, keyboard navigation, outside-click dismissal).

JavaScript numbers are modelled by `JsNum`: NaN, the two infinities, or a
finite value idealised as an exact rational (the properties at stake are
NaN/infinity propagation, clamping and decimal round-trips, none of which
depend on binary rounding).  `parseFloat` and `Number.prototype.toString`
are modelled on decimal notation without an exponent part, which covers
every string the modelled controller reads or writes.  Fallible collaborator
functions (the combobox accessors, whose exceptions the source catches) are
modelled with `Except`.
-/

namespace OrbitMeet

/-- Model of a JavaScript number: NaN, an infinity, or a finite value
(idealised as an exact rational). -/
inductive JsNum where
  | nan
  | inf
  | ninf
  | fin (q : ℚ)
deriving DecidableEq

/-- JS subtraction `a - b` on the `JsNum` model (NaN propagates,
`Infinity - Infinity` is NaN). -/
def jsSub : JsNum → JsNum → JsNum
  | .nan, _ => .nan
  | _, .nan => .nan
  | .inf, .inf => .nan
  | .inf, _ => .inf
  | .ninf, .ninf => .nan
  | .ninf, _ => .ninf
  | .fin _, .inf => .ninf
  | .fin _, .ninf => .inf
  | .fin a, .fin b => .fin (a - b)

/-- JS multiplication on the `JsNum` model (NaN propagates; an infinity
times zero is NaN). -/
def jsMul : JsNum → JsNum → JsNum
  | .nan, _ => .nan
  | _, .nan => .nan
  | .inf, .inf => .inf
  | .inf, .ninf => .ninf
  | .ninf, .inf => .ninf
  | .ninf, .ninf => .inf
  | .inf, .fin b => if 0 < b then .inf else if b < 0 then .ninf else .nan
  | .fin a, .inf => if 0 < a then .inf else if a < 0 then .ninf else .nan
  | .ninf, .fin b => if 0 < b then .ninf else if b < 0 then .inf else .nan
  | .fin a, .ninf => if 0 < a then .ninf else if a < 0 then .inf else .nan
  | .fin a, .fin b => .fin (a * b)

/-- JS division on the `JsNum` model: NaN propagates, `x / 0` is a signed
infinity for `x ≠ 0` (the zero here is the `+0` produced by layout
measurements) and `0 / 0` is NaN. -/
def jsDiv : JsNum → JsNum → JsNum
  | .nan, _ => .nan
  | _, .nan => .nan
  | .inf, .inf => .nan
  | .inf, .ninf => .nan
  | .ninf, .inf => .nan
  | .ninf, .ninf => .nan
  | .inf, .fin b => if b < 0 then .ninf else .inf
  | .ninf, .fin b => if b < 0 then .inf else .ninf
  | .fin _, .inf => .fin 0
  | .fin _, .ninf => .fin 0
  | .fin a, .fin b =>
    if b = 0 then (if 0 < a then .inf else if a < 0 then .ninf else .nan)
    else .fin (a / b)

/-- `Math.min` on two arguments: NaN if either argument is NaN. -/
def jsMin : JsNum → JsNum → JsNum
  | .nan, _ => .nan
  | _, .nan => .nan
  | .ninf, _ => .ninf
  | _, .ninf => .ninf
  | .inf, b => b
  | a, .inf => a
  | .fin a, .fin b => .fin (min a b)

/-- `Math.max` on two arguments: NaN if either argument is NaN. -/
def jsMax : JsNum → JsNum → JsNum
  | .nan, _ => .nan
  | _, .nan => .nan
  | .inf, _ => .inf
  | _, .inf => .inf
  | .ninf, b => b
  | a, .ninf => a
  | .fin a, .fin b => .fin (max a b)

/-- The width invariant claimed by the specification: the chat pane width is
a finite percentage within the configured clamp range of 5 to 95 percent
of `App.jsx` (`Math.max(5, Math.min(95, newWidth))`). -/
def widthInRange : JsNum → Prop
  | .fin q => 5 ≤ q ∧ q ≤ 95
  | _ => False

/-- The decimal digit character for `d` (meaningful for `d < 10`). -/
def digitChar (d : Nat) : Char := Char.ofNat (48 + d)

/-- Value of a string of decimal digit characters, most significant first. -/
def digitsVal (l : List Char) : Nat :=
  l.foldl (fun a c => 10 * a + (c.toNat - 48)) 0

/-- Fuelled decimal printer for naturals, most significant digit first. -/
def natDigitsAux : Nat → Nat → List Char
  | 0, _ => []
  | fuel + 1, n =>
    if n < 10 then [digitChar n]
    else natDigitsAux fuel (n / 10) ++ [digitChar (n % 10)]

/-- Decimal digits of a natural number, most significant first. -/
def natDigits (n : Nat) : List Char := natDigitsAux (n + 1) n

/-- Exactly `k` decimal digits of `m` (zero padded), most significant first. -/
def padDigits : Nat → Nat → List Char
  | 0, _ => []
  | k + 1, m => padDigits k (m / 10) ++ [digitChar (m % 10)]

/-- Longest prefix of decimal digit characters, and the remainder. -/
def spanDigits : List Char → List Char × List Char
  | [] => ([], [])
  | c :: t =>
    if c.isDigit then (c :: (spanDigits t).1, (spanDigits t).2)
    else ([], c :: t)

/-- Does the first list start with the second one? -/
def listStartsWith : List Char → List Char → Bool
  | _, [] => true
  | [], _ :: _ => false
  | a :: as, b :: bs => a == b && listStartsWith as bs

/-- Apply an optional leading minus sign to a parsed magnitude. -/
def applySign (neg : Bool) (q : ℚ) : ℚ := if neg then -q else q

/-- Parse the unsigned part of a JS `parseFloat` input: `Infinity`, or a
decimal literal `digits [. digits]`; anything else gives NaN.  Trailing
garbage after the longest valid prefix is ignored, as in JS. -/
def parseUnsigned (neg : Bool) (l : List Char) : JsNum :=
  if listStartsWith l "Infinity".data then (if neg then .ninf else .inf)
  else
    match spanDigits l with
    | (ds, rest) =>
      match rest with
      | '.' :: r2 =>
        match spanDigits r2 with
        | (fs, _) =>
          if ds.isEmpty && fs.isEmpty then .nan
          else .fin (applySign neg ((digitsVal ds : ℚ) + (digitsVal fs : ℚ) / 10 ^ fs.length))
      | _ => if ds.isEmpty then .nan else .fin (applySign neg (digitsVal ds))

/-- JS `parseFloat` on a character list: optional sign, then an unsigned
decimal literal or `Infinity`. -/
def parseFloatChars : List Char → JsNum
  | [] => .nan
  | c :: t =>
    if c == '-' then parseUnsigned true t
    else if c == '+' then parseUnsigned false t
    else parseUnsigned false (c :: t)

/-- Model of JS `parseFloat`: skip leading spaces, then parse the longest
numeric prefix; no numeric prefix at all gives NaN. -/
def jsParseFloat (s : String) : JsNum :=
  parseFloatChars (s.data.dropWhile fun c => c == ' ')

/-- Decimal rendering of a rational whose denominator divides a power of
ten, in the shape `[-]intpart.fracpart` using `q.den` fractional digits.
Model of JS `Number.prototype.toString` for the exactly-represented finite
values the controller persists: JS prints the shortest decimal form while
this model may keep trailing zeros, but `parseFloat` recovers the very same
value from either spelling, which is the property persistence relies on. -/
def ratDecString (q : ℚ) : String :=
  String.mk
    ((if q.num < 0 then ['-'] else []) ++
      natDigits (q.num.natAbs * (10 ^ q.den / q.den) / 10 ^ q.den) ++
      '.' :: padDigits q.den (q.num.natAbs * (10 ^ q.den / q.den) % 10 ^ q.den))

/-- Model of JS `Number.prototype.toString` on the `JsNum` model. -/
def jsToString : JsNum → String
  | .nan => "NaN"
  | .inf => "Infinity"
  | .ninf => "-Infinity"
  | .fin q => ratDecString q

/-- A `JsNum` has an exact finite decimal representation (true of every
actual JS number, the model boundary for the decimal printer): its
denominator divides the corresponding power of ten. -/
def decRepr : JsNum → Prop
  | .fin q => 10 ^ q.den % q.den = 0
  | _ => True

/-! ### Layout controller (`src/frontend/src/App.jsx`) -/

/-- The layout-relevant component state of `App`. -/
structure LayoutState where
  chatbotWidth : JsNum
  isChatbotVisible : Bool
  isAnalysisCollapsed : Bool
  isChatbotCollapsed : Bool
  isResizing : Bool
  isDesktop : Bool
deriving DecidableEq

/-- The preference store (`localStorage`) restricted to the two keys the
controller uses; `none` models an absent key. -/
structure Store where
  chatbotWidth : Option String
  chatbotVisible : Option String
deriving DecidableEq

/-- Initialiser of the `chatbotWidth` state:
`saved ? parseFloat(saved) : 20` where `saved = localStorage.getItem('chatbotWidth')`
(the empty string is falsy in JS, like an absent key). -/
def loadWidth : Option String → JsNum
  | none => .fin 20
  | some s => if s = "" then .fin 20 else jsParseFloat s

/-- Initialiser of the `isChatbotVisible` state:
`saved ? saved === 'true' : true`. -/
def loadVisible : Option String → Bool
  | none => true
  | some s => if s = "" then true else s == "true"

/-- Construction of the layout controller state at mount, from the
preference store and the current viewport width. -/
def appInit (store : Store) (innerWidth : ℚ) : LayoutState where
  chatbotWidth := loadWidth store.chatbotWidth
  isChatbotVisible := loadVisible store.chatbotVisible
  isAnalysisCollapsed := false
  isChatbotCollapsed := false
  isResizing := false
  isDesktop := decide (1024 ≤ innerWidth)

/-- `handleMouseMove` of `App.jsx`: returns early unless a resize session is
open and both `resizeRef.current` and its parent container exist; otherwise
computes
`((containerRect.width - (e.clientX - containerRect.left)) / containerRect.width) * 100`
and clamps it with `Math.max(5, Math.min(95, newWidth))`. -/
def handleMouseMove (refPresent containerPresent : Bool)
    (clientX rectLeft rectWidth : JsNum) (s : LayoutState) : LayoutState :=
  if !s.isResizing || !refPresent then s
  else if !containerPresent then s
  else
    let newWidth := jsMul (jsDiv (jsSub rectWidth (jsSub clientX rectLeft)) rectWidth) (.fin 100)
    let constrainedWidth := jsMax (.fin 5) (jsMin (.fin 95) newWidth)
    { s with chatbotWidth := constrainedWidth }

/-- `handleMouseUp` of `App.jsx`: closes the resize session. -/
def handleMouseUp (s : LayoutState) : LayoutState :=
  { s with isResizing := false }

/-- The separator `onMouseDown` of `App.jsx`: opens a resize session.  The
separator is only rendered when the chat pane is visible and neither pane is
collapsed, so the handler can only fire then. -/
def separatorMouseDown (s : LayoutState) : LayoutState :=
  if s.isChatbotVisible && !s.isAnalysisCollapsed && !s.isChatbotCollapsed then
    { s with isResizing := true }
  else s

/-- `handleCollapseAnalysis` of `App.jsx`. -/
def handleCollapseAnalysis (s : LayoutState) : LayoutState :=
  { s with isAnalysisCollapsed := true, isChatbotCollapsed := false, chatbotWidth := .fin 95 }

/-- `handleCollapseChatbot` of `App.jsx`. -/
def handleCollapseChatbot (s : LayoutState) : LayoutState :=
  { s with isChatbotCollapsed := true, isAnalysisCollapsed := false, chatbotWidth := .fin 5 }

/-- `handleExpandBoth` of `App.jsx`. -/
def handleExpandBoth (s : LayoutState) : LayoutState :=
  { s with isAnalysisCollapsed := false, isChatbotCollapsed := false, chatbotWidth := .fin 20 }

/-- The chatbot visibility toggle button of `App.jsx`. -/
def toggleChatbotVisible (s : LayoutState) : LayoutState :=
  { s with isChatbotVisible := !s.isChatbotVisible }

/-- The window `resize` handler of `App.jsx`:
`setIsDesktop(window.innerWidth >= 1024)`. -/
def handleWindowResize (innerWidth : ℚ) (s : LayoutState) : LayoutState :=
  { s with isDesktop := decide (1024 ≤ innerWidth) }

/-- One user-visible operation on the layout controller. -/
inductive LayoutOp where
  | mouseMove (refPresent containerPresent : Bool) (clientX rectLeft rectWidth : JsNum)
  | mouseUp
  | separatorDown
  | collapseAnalysis
  | collapseChatbot
  | expandBoth
  | toggleVisible
  | windowResize (innerWidth : ℚ)

/-- Apply one layout operation to the controller state. -/
def layoutStep (s : LayoutState) : LayoutOp → LayoutState
  | .mouseMove refP contP x l w => handleMouseMove refP contP x l w s
  | .mouseUp => handleMouseUp s
  | .separatorDown => separatorMouseDown s
  | .collapseAnalysis => handleCollapseAnalysis s
  | .collapseChatbot => handleCollapseChatbot s
  | .expandBoth => handleExpandBoth s
  | .toggleVisible => toggleChatbotVisible s
  | .windowResize w => handleWindowResize w s

/-- Apply a sequence of layout operations in delivery order. -/
def runLayout (ops : List LayoutOp) (s : LayoutState) : LayoutState :=
  ops.foldl layoutStep s

/-- A mouse-move operation carries ordinary pointer data: finite client and
rect coordinates and a nonzero container width.  Trivially true of every
other operation. -/
def finiteMouseInputs : LayoutOp → Prop
  | .mouseMove _ _ x l w =>
    (∃ a, x = .fin a) ∧ (∃ b, l = .fin b) ∧ (∃ c, w = .fin c ∧ c ≠ 0)
  | _ => True

/-- The persistence effects of `App.jsx`: both keys are written with the
`toString` image of the corresponding state field. -/
def persistPrefs (s : LayoutState) : Store where
  chatbotWidth := some (jsToString s.chatbotWidth)
  chatbotVisible := some (if s.isChatbotVisible then "true" else "false")

/-! ### Searchable combobox (`src/frontend/src/components/SearchableSelect.jsx`) -/

/-- The internal state of `SearchableSelect`: open flag, query text and
highlighted index (`-1` meaning no highlight). -/
structure CbState where
  isOpen : Bool
  searchTerm : String
  highlightedIndex : Int
deriving DecidableEq

/-- The state a fresh `SearchableSelect` instance starts in. -/
def cbInit : CbState where
  isOpen := false
  searchTerm := ""
  highlightedIndex := -1

/-- JS `String.prototype.includes`: substring containment. -/
def jsIncludes : List Char → List Char → Bool
  | [], needle => needle.isEmpty
  | l@(_ :: t), needle => listStartsWith l needle || jsIncludes t needle

/-- `filteredOptions` of `SearchableSelect.jsx`: keep the options whose
label, lowercased, contains the lowercased search term; an option whose
label accessor throws is excluded by the `try/catch` (`return false`).
`toLowerCase` is modelled per character. -/
def filteredOptions {O : Type} (getOptionLabel : O → Except Unit String)
    (options : List O) (searchTerm : String) : List O :=
  options.filter fun opt =>
    match getOptionLabel opt with
    | .ok label =>
      jsIncludes (label.data.map Char.toLower) (searchTerm.data.map Char.toLower)
    | .error _ => false

/-- The filtering rule in the words of the specification:
`options.filter(o => labelOf(o).toLowerCase().includes(query.toLowerCase()))`
for a total label accessor. -/
def filteredOptionsSpec {O : Type} (labelOf : O → String)
    (options : List O) (query : String) : List O :=
  options.filter fun o =>
    jsIncludes ((labelOf o).data.map Char.toLower) (query.data.map Char.toLower)

/-- `handleSelect` of `SearchableSelect.jsx`: inside `try`, reads the value
accessor, invokes `onChange`, then closes and resets query and highlight;
any exception is caught (logged) and aborts the rest of the block.  The
second component lists the `onChange` invocations actually made. -/
def handleSelect {O V : Type} (getOptionValue : O → Except Unit V)
    (onChange : V → Except Unit Unit) (s : CbState) (option : O) : CbState × List V :=
  match getOptionValue option with
  | .error _ => (s, [])
  | .ok v =>
    match onChange v with
    | .error _ => (s, [v])
    | .ok _ => (⟨false, "", -1⟩, [v])

/-- One user-visible event on the combobox. -/
inductive CbEvent where
  | keyEnter
  | keyArrowDown
  | keyArrowUp
  | keyEscape
  | inputChange (text : String)
  | focusInput
  | toggleClick
  | outsideClick
  | optionClick (i : Nat)
  | optionMouseEnter (i : Nat)

/-- Apply one combobox event, for collaborators that do not throw
(`getOptionLabel`, `getOptionValue` total, `onChange` returning).  Keyboard
events follow `handleKeyDown`; `inputChange` can only fire when the input is
editable (not `disabled`, not `readOnly`, the latter exactly when open);
option rows exist only while the dropdown is rendered (open and not
disabled). -/
def cbStep {O V : Type} (getOptionLabel : O → String) (getOptionValue : O → V)
    (disabled : Bool) (options : List O) (ev : CbEvent) (s : CbState) : CbState :=
  match ev with
  | .keyEnter =>
    if disabled then s
    else
      let filtered := filteredOptions (fun o => .ok (getOptionLabel o)) options s.searchTerm
      if 0 ≤ s.highlightedIndex then
        match filtered[s.highlightedIndex.toNat]? with
        | some opt =>
          (handleSelect (fun o => .ok (getOptionValue o)) (fun _ => .ok ()) s opt).1
        | none => if s.isOpen then { s with isOpen := false } else { s with isOpen := true }
      else if s.isOpen then { s with isOpen := false } else { s with isOpen := true }
  | .keyArrowDown =>
    if disabled then s
    else if !s.isOpen then { s with isOpen := true }
    else
      let filtered := filteredOptions (fun o => .ok (getOptionLabel o)) options s.searchTerm
      { s with
        highlightedIndex :=
          if s.highlightedIndex < (filtered.length : Int) - 1 then s.highlightedIndex + 1
          else s.highlightedIndex }
  | .keyArrowUp =>
    if disabled then s
    else
      { s with
        highlightedIndex := if 0 < s.highlightedIndex then s.highlightedIndex - 1 else 0 }
  | .keyEscape =>
    if disabled then s
    else { s with isOpen := false, searchTerm := "", highlightedIndex := -1 }
  | .inputChange text =>
    if disabled || !s.isOpen then s
    else { s with searchTerm := text, highlightedIndex := -1, isOpen := true }
  | .focusInput =>
    if disabled then s
    else { s with isOpen := true, searchTerm := "" }
  | .toggleClick =>
    if disabled then s
    else { s with isOpen := !s.isOpen }
  | .outsideClick => { s with isOpen := false, searchTerm := "", highlightedIndex := -1 }
  | .optionClick i =>
    if disabled || !s.isOpen then s
    else
      let filtered := filteredOptions (fun o => .ok (getOptionLabel o)) options s.searchTerm
      match filtered[i]? with
      | some opt =>
        (handleSelect (fun o => .ok (getOptionValue o)) (fun _ => .ok ()) s opt).1
      | none => s
  | .optionMouseEnter i =>
    if disabled || !s.isOpen then s
    else
      let filtered := filteredOptions (fun o => .ok (getOptionLabel o)) options s.searchTerm
      if i < filtered.length then { s with highlightedIndex := (i : Int) } else s

/-- Apply a sequence of combobox events in delivery order. -/
def cbRun {O V : Type} (getOptionLabel : O → String) (getOptionValue : O → V)
    (disabled : Bool) (options : List O) (evs : List CbEvent) (s : CbState) : CbState :=
  evs.foldl (fun st e => cbStep getOptionLabel getOptionValue disabled options e st) s

/-- Concrete layout state used by the counterexamples: a balanced desktop
layout with the default 20 percent chat width and an open resize session. -/
def resizingState : LayoutState where
  chatbotWidth := .fin 20
  isChatbotVisible := true
  isAnalysisCollapsed := false
  isChatbotCollapsed := false
  isResizing := true
  isDesktop := true

/-! ### Decimal printing and parsing lemmas -/

theorem digitChar_isDigit : ∀ d : Nat, d < 10 → (digitChar d).isDigit = true := by decide

theorem digitChar_toNat : ∀ d : Nat, d < 10 → (digitChar d).toNat = 48 + d := by decide

theorem isDigit_ne (c x : Char) (h : c.isDigit = true) (hx : x.isDigit = false) :
    (c == x) = false := by
  cases hbe : c == x
  · rfl
  · have hcx : c = x := eq_of_beq hbe
    subst hcx
    rw [h] at hx
    cases hx

theorem natDigitsAux_foldl : ∀ fuel n a : Nat, n < fuel →
    (natDigitsAux fuel n).foldl (fun a c => 10 * a + (c.toNat - 48)) a
      = a * 10 ^ (natDigitsAux fuel n).length + n := by
  intro fuel
  induction fuel with
  | zero => intro n a h; exact absurd h (Nat.not_lt_zero n)
  | succ fuel ih =>
    intro n a h
    by_cases h10 : n < 10
    · simp only [natDigitsAux, if_pos h10, List.foldl_cons, List.foldl_nil,
        List.length_singleton, pow_one, digitChar_toNat n h10]
      omega
    · simp only [natDigitsAux, if_neg h10, List.foldl_append, List.length_append,
        List.foldl_cons, List.foldl_nil, List.length_singleton,
        digitChar_toNat (n % 10) (Nat.mod_lt _ (by norm_num))]
      rw [ih (n / 10) a (by omega), pow_succ, ← Nat.mul_assoc]
      have hm : 10 * (n / 10) + n % 10 = n := Nat.div_add_mod n 10
      omega

theorem digitsVal_natDigits (n : Nat) : digitsVal (natDigits n) = n := by
  have h := natDigitsAux_foldl (n + 1) n 0 (Nat.lt_succ_self n)
  simpa [digitsVal, natDigits] using h

theorem natDigitsAux_digits : ∀ fuel n : Nat, ∀ c ∈ natDigitsAux fuel n, c.isDigit = true := by
  intro fuel
  induction fuel with
  | zero => intro n c hc; simp [natDigitsAux] at hc
  | succ fuel ih =>
    intro n c hc
    by_cases h10 : n < 10
    · simp only [natDigitsAux, if_pos h10, List.mem_singleton] at hc
      subst hc
      exact digitChar_isDigit n h10
    · simp only [natDigitsAux, if_neg h10, List.mem_append, List.mem_singleton] at hc
      rcases hc with hc | hc
      · exact ih (n / 10) c hc
      · subst hc
        exact digitChar_isDigit _ (Nat.mod_lt _ (by norm_num))

theorem natDigits_digits (n : Nat) : ∀ c ∈ natDigits n, c.isDigit = true :=
  natDigitsAux_digits (n + 1) n

theorem natDigitsAux_ne_nil : ∀ fuel n : Nat, n < fuel → natDigitsAux fuel n ≠ [] := by
  intro fuel
  induction fuel with
  | zero => intro n h; exact absurd h (Nat.not_lt_zero n)
  | succ fuel _ =>
    intro n _
    by_cases h10 : n < 10
    · simp [natDigitsAux, if_pos h10]
    · simp [natDigitsAux, if_neg h10]

theorem natDigits_ne_nil (n : Nat) : natDigits n ≠ [] :=
  natDigitsAux_ne_nil (n + 1) n (Nat.lt_succ_self n)

theorem padDigits_length : ∀ k m : Nat, (padDigits k m).length = k := by
  intro k
  induction k with
  | zero => intro m; rfl
  | succ k ih => intro m; simp [padDigits, ih]

theorem padDigits_foldl : ∀ k m a : Nat, m < 10 ^ k →
    (padDigits k m).foldl (fun a c => 10 * a + (c.toNat - 48)) a = a * 10 ^ k + m := by
  intro k
  induction k with
  | zero =>
    intro m a h
    simp only [pow_zero, Nat.lt_one_iff] at h
    simp [padDigits, h]
  | succ k ih =>
    intro m a h
    have hdiv : m / 10 < 10 ^ k := by
      rw [Nat.div_lt_iff_lt_mul (by norm_num)]
      calc m < 10 ^ (k + 1) := h
        _ = 10 ^ k * 10 := pow_succ 10 k
    simp only [padDigits, List.foldl_append, List.foldl_cons, List.foldl_nil,
      digitChar_toNat (m % 10) (Nat.mod_lt _ (by norm_num))]
    rw [ih (m / 10) a hdiv, pow_succ, ← Nat.mul_assoc]
    have hm : 10 * (m / 10) + m % 10 = m := Nat.div_add_mod m 10
    omega

theorem digitsVal_padDigits (k m : Nat) (h : m < 10 ^ k) : digitsVal (padDigits k m) = m := by
  have hp := padDigits_foldl k m 0 h
  simpa [digitsVal] using hp

theorem padDigits_digits : ∀ k m : Nat, ∀ c ∈ padDigits k m, c.isDigit = true := by
  intro k
  induction k with
  | zero => intro m c hc; simp [padDigits] at hc
  | succ k ih =>
    intro m c hc
    simp only [padDigits, List.mem_append, List.mem_singleton] at hc
    rcases hc with hc | hc
    · exact ih (m / 10) c hc
    · subst hc
      exact digitChar_isDigit _ (Nat.mod_lt _ (by norm_num))

theorem spanDigits_all : ∀ l : List Char, (∀ c ∈ l, c.isDigit = true) →
    spanDigits l = (l, []) := by
  intro l
  induction l with
  | nil => intro _; rfl
  | cons c t ih =>
    intro h
    simp only [spanDigits, if_pos (h c (by simp)), ih fun x hx => h x (by simp [hx])]

theorem spanDigits_append_stop : ∀ (l₁ : List Char) (c : Char) (t : List Char),
    (∀ x ∈ l₁, x.isDigit = true) → c.isDigit = false →
    spanDigits (l₁ ++ c :: t) = (l₁, c :: t) := by
  intro l₁
  induction l₁ with
  | nil =>
    intro c t _ hc
    simp [spanDigits, hc]
  | cons a l₁ ih =>
    intro c t h hc
    have ih2 := ih c t (fun x hx => h x (by simp [hx])) hc
    simp only [List.cons_append, spanDigits, if_pos (h a (by simp)), List.append_eq, ih2]

theorem listStartsWith_ne_head (c : Char) (t needle : List Char) (x : Char) (rest : List Char)
    (hn : needle = x :: rest) (hne : (c == x) = false) :
    listStartsWith (c :: t) needle = false := by
  subst hn
  simp [listStartsWith, hne]

theorem not_startsWith_infinity_of_digit (c : Char) (t : List Char) (h : c.isDigit = true) :
    listStartsWith (c :: t) "Infinity".data = false :=
  listStartsWith_ne_head c t _ 'I' _ rfl (isDigit_ne c 'I' h (by decide))

theorem parseUnsigned_digits_dot (neg : Bool) (ds fs : List Char)
    (hds : ∀ c ∈ ds, c.isDigit = true) (hne : ds ≠ [])
    (hfs : ∀ c ∈ fs, c.isDigit = true) :
    parseUnsigned neg (ds ++ '.' :: fs)
      = .fin (applySign neg ((digitsVal ds : ℚ) + (digitsVal fs : ℚ) / 10 ^ fs.length)) := by
  obtain ⟨c, t, rfl⟩ : ∃ c t, ds = c :: t := by
    cases ds with
    | nil => exact absurd rfl hne
    | cons c t => exact ⟨c, t, rfl⟩
  rw [parseUnsigned, List.cons_append,
    not_startsWith_infinity_of_digit c _ (hds c (by simp))]
  rw [← List.cons_append, spanDigits_append_stop (c :: t) '.' fs hds (by decide)]
  have hspan : spanDigits fs = (fs, []) := spanDigits_all fs hfs
  simp [hspan, List.isEmpty]

theorem parseFloatChars_digit_lead (c : Char) (t : List Char) (h : c.isDigit = true) :
    parseFloatChars (c :: t) = parseUnsigned false (c :: t) := by
  rw [parseFloatChars, isDigit_ne c '-' h (by decide), isDigit_ne c '+' h (by decide)]
  rfl

theorem dropWhile_space_of_digit (c : Char) (t : List Char) (h : c.isDigit = true) :
    (c :: t).dropWhile (fun x => x == ' ') = c :: t := by
  simp [List.dropWhile, isDigit_ne c ' ' h (by decide)]

theorem dropWhile_space_of_head (c : Char) (t : List Char) (h : (c == ' ') = false) :
    (c :: t).dropWhile (fun x => x == ' ') = c :: t := by
  simp [List.dropWhile, h]

theorem jsParseFloat_mk (l : List Char) :
    jsParseFloat (String.mk l) = parseFloatChars (l.dropWhile fun c => c == ' ') := rfl

theorem parsed_value_eq (a d m : Nat) (hmd : m * d = 10 ^ d) :
    ((digitsVal (natDigits (a * m / 10 ^ d)) : ℚ))
      + (digitsVal (padDigits d (a * m % 10 ^ d)) : ℚ)
        / 10 ^ (padDigits d (a * m % 10 ^ d)).length
    = (a : ℚ) / d := by
  have hpow : (0:ℕ) < 10 ^ d := pow_pos (by norm_num) d
  have hmpos : 0 < m := by
    rcases Nat.eq_zero_or_pos m with h0 | h0
    · rw [h0, Nat.zero_mul] at hmd
      exact absurd hmd.symm hpow.ne'
    · exact h0
  rw [digitsVal_natDigits, digitsVal_padDigits d _ (Nat.mod_lt _ hpow), padDigits_length]
  have hq10 : ((10:ℚ) ^ d) ≠ 0 := by positivity
  have hqm : ((m:ℚ)) ≠ 0 := by exact_mod_cast hmpos.ne'
  have h1 : ((10:ℚ) ^ d) = (m : ℚ) * d := by exact_mod_cast hmd.symm
  calc ((a * m / 10 ^ d : ℕ) : ℚ) + ((a * m % 10 ^ d : ℕ) : ℚ) / 10 ^ d
      = (((a * m / 10 ^ d : ℕ) : ℚ) * 10 ^ d + ((a * m % 10 ^ d : ℕ) : ℚ)) / 10 ^ d := by
        rw [add_div, mul_div_cancel_right₀ _ hq10]
    _ = ((a * m : ℕ) : ℚ) / 10 ^ d := by
        congr 1
        exact_mod_cast Nat.div_add_mod' (a * m) (10 ^ d)
    _ = (a : ℚ) * m / ((m : ℚ) * d) := by
        push_cast
        rw [h1]
    _ = (a : ℚ) / d := by
        rw [mul_comm ((a : ℚ)) ((m : ℚ)), mul_div_mul_left _ _ hqm]

theorem ratDecString_ne_empty (q : ℚ) : ratDecString q ≠ "" := by
  intro h
  have hdata : ((if q.num < 0 then ['-'] else []) ++
      natDigits (q.num.natAbs * (10 ^ q.den / q.den) / 10 ^ q.den) ++
      '.' :: padDigits q.den (q.num.natAbs * (10 ^ q.den / q.den) % 10 ^ q.den))
      = ([] : List Char) := congrArg String.data h
  simp at hdata

theorem natAbs_div_den (q : ℚ) : ((q.num.natAbs : ℚ)) / q.den = |q| := by
  conv_rhs => rw [← Rat.num_div_den q]
  rw [abs_div, Int.cast_natAbs]
  congr 1
  · exact Int.cast_abs
  · exact (abs_of_pos (show (0:ℚ) < (q.den : ℚ) by exact_mod_cast q.den_pos)).symm

theorem jsParseFloat_ratDecString (q : ℚ) (h : 10 ^ q.den % q.den = 0) :
    jsParseFloat (ratDecString q) = .fin q := by
  have hdpos : 0 < q.den := q.den_pos
  have hdvd : q.den ∣ 10 ^ q.den := Nat.dvd_of_mod_eq_zero h
  have hmd : 10 ^ q.den / q.den * q.den = 10 ^ q.den := Nat.div_mul_cancel hdvd
  have hval := parsed_value_eq q.num.natAbs q.den (10 ^ q.den / q.den) hmd
  have hds := natDigits_digits (q.num.natAbs * (10 ^ q.den / q.den) / 10 ^ q.den)
  have hdsne := natDigits_ne_nil (q.num.natAbs * (10 ^ q.den / q.den) / 10 ^ q.den)
  have hfs := padDigits_digits q.den (q.num.natAbs * (10 ^ q.den / q.den) % 10 ^ q.den)
  by_cases hneg : q.num < 0
  · have hqneg : q < 0 := by
      by_contra hq
      push_neg at hq
      have := Rat.num_nonneg.mpr hq
      omega
    have hrepr : ratDecString q = String.mk
        ('-' :: (natDigits (q.num.natAbs * (10 ^ q.den / q.den) / 10 ^ q.den) ++
          '.' :: padDigits q.den (q.num.natAbs * (10 ^ q.den / q.den) % 10 ^ q.den))) := by
      rw [ratDecString, if_pos hneg]
      rfl
    rw [hrepr, jsParseFloat_mk, dropWhile_space_of_head _ _ (by decide)]
    show parseUnsigned true _ = _
    rw [parseUnsigned_digits_dot true _ _ hds hdsne hfs, hval, natAbs_div_den]
    simp [applySign, abs_of_neg hqneg]
  · have hqpos : 0 ≤ q := Rat.num_nonneg.mp (by omega)
    have hrepr : ratDecString q = String.mk
        (natDigits (q.num.natAbs * (10 ^ q.den / q.den) / 10 ^ q.den) ++
          '.' :: padDigits q.den (q.num.natAbs * (10 ^ q.den / q.den) % 10 ^ q.den)) := by
      rw [ratDecString, if_neg hneg]
      rfl
    obtain ⟨c, t, hct⟩ : ∃ c t,
        natDigits (q.num.natAbs * (10 ^ q.den / q.den) / 10 ^ q.den) = c :: t := by
      cases hx : natDigits (q.num.natAbs * (10 ^ q.den / q.den) / 10 ^ q.den) with
      | nil => exact absurd hx hdsne
      | cons c t => exact ⟨c, t, rfl⟩
    have hcdigit : c.isDigit = true := hds c (by rw [hct]; simp)
    rw [hrepr, jsParseFloat_mk, hct, List.cons_append,
      dropWhile_space_of_head _ _ (isDigit_ne c ' ' hcdigit (by decide)),
      parseFloatChars_digit_lead c _ hcdigit, ← List.cons_append, ← hct]
    rw [parseUnsigned_digits_dot false _ _ hds hdsne hfs, hval, natAbs_div_den]
    simp [applySign, abs_of_nonneg hqpos]

theorem jsParseFloat_nan_lit : jsParseFloat "NaN" = .nan := rfl

theorem jsParseFloat_inf_lit : jsParseFloat "Infinity" = .inf := rfl

theorem jsParseFloat_ninf_lit : jsParseFloat "-Infinity" = .ninf := rfl

/-! ### Layout controller lemmas and claims -/

theorem handleMouseMove_range (s : LayoutState) (refP contP : Bool) (x l w : JsNum)
    (hx : ∃ a, x = .fin a) (hl : ∃ b, l = .fin b) (hw : ∃ c, w = .fin c ∧ c ≠ 0)
    (hs : widthInRange s.chatbotWidth) :
    widthInRange (handleMouseMove refP contP x l w s).chatbotWidth := by
  obtain ⟨a, rfl⟩ := hx
  obtain ⟨b, rfl⟩ := hl
  obtain ⟨c, rfl, hc0⟩ := hw
  rw [handleMouseMove]
  split
  · exact hs
  split
  · exact hs
  simp only [jsSub, jsDiv, jsMul, jsMin, jsMax, if_neg hc0]
  exact ⟨le_max_left _ _, max_le (by norm_num) (min_le_left _ _)⟩

theorem layoutStep_range (s : LayoutState) (op : LayoutOp) (hop : finiteMouseInputs op)
    (hs : widthInRange s.chatbotWidth) : widthInRange (layoutStep s op).chatbotWidth := by
  cases op with
  | mouseMove refP contP x l w =>
    obtain ⟨hx, hl, hw⟩ := hop
    exact handleMouseMove_range s refP contP x l w hx hl hw hs
  | mouseUp => exact hs
  | separatorDown =>
    simp only [layoutStep, separatorMouseDown]
    split
    · exact hs
    · exact hs
  | collapseAnalysis => exact ⟨by norm_num, by norm_num⟩
  | collapseChatbot => exact ⟨by norm_num, by norm_num⟩
  | expandBoth => exact ⟨by norm_num, by norm_num⟩
  | toggleVisible => exact hs
  | windowResize w => exact hs

/-- C1 (amended): construction does not clamp the persisted width, but once
the width is in the configured range every operation keeps it there: any
sequence of operations whose mouse moves carry finite pointer data and a
nonzero container width preserves `chatbotWidth ∈ [5, 95]`. -/
theorem chatWidth_stays_in_range (s : LayoutState) (ops : List LayoutOp)
    (hs : widthInRange s.chatbotWidth) (hops : ∀ op ∈ ops, finiteMouseInputs op) :
    widthInRange (runLayout ops s).chatbotWidth := by
  induction ops generalizing s with
  | nil => exact hs
  | cons op ops ih =>
    exact ih (layoutStep s op)
      (layoutStep_range s op (hops op (by simp)) hs) fun o ho => hops o (by simp [ho])

/-- C1 (counterexample): the claim says `chatWidthPercent` is within
`[minPercent, maxPercent] = [5, 95]` immediately after construction from the
Preference Store, but `App.jsx` adopts `parseFloat(saved)` unclamped: a
stored `"100"` yields a width of 100. -/
theorem chatWidth_init_unclamped :
    (appInit ⟨some "100", none⟩ 1280).chatbotWidth = .fin ((100 : ℕ) : ℚ)
      ∧ ¬ widthInRange (.fin ((100 : ℕ) : ℚ)) := by
  refine ⟨rfl, fun hr => ?_⟩
  obtain ⟨-, h2⟩ := hr
  norm_num at h2

/-- C1 (witness): a concrete in-range state stays in range under a concrete
finite mouse move. -/
theorem chatWidth_stays_in_range_witness :
    widthInRange resizingState.chatbotWidth
    ∧ widthInRange
        ((runLayout [.mouseMove true true (.fin 300) (.fin 0) (.fin 1000)]
          resizingState).chatbotWidth) := by
  have h0 : widthInRange resizingState.chatbotWidth := ⟨by norm_num, by norm_num⟩
  refine ⟨h0, chatWidth_stays_in_range _ _ h0 ?_⟩
  intro op hop
  rw [List.mem_singleton] at hop
  subst hop
  exact ⟨⟨300, rfl⟩, ⟨0, rfl⟩, ⟨1000, rfl, by norm_num⟩⟩

/-- C2 (code bug): the specification says a NaN pointer position during
`updateResize` is rejected with the state unchanged, but `handleMouseMove`
has no NaN guard: NaN propagates through the resize arithmetic and through
`Math.max(5, Math.min(95, ...))`, and `chatbotWidth` is set to NaN instead of
keeping its previous value 20. -/
theorem nan_pointer_corrupts_width :
    (handleMouseMove true true .nan (.fin 0) (.fin 1000) resizingState).chatbotWidth = .nan
    ∧ resizingState.chatbotWidth = .fin 20
    ∧ JsNum.nan ≠ JsNum.fin 20 :=
  ⟨rfl, rfl, fun h => JsNum.noConfusion h⟩

/-- C3 (amended): `handleMouseMove` is a no-op when no resize session is open
or the separator ref or its container is missing; but a zero-width container
is not ignored: the division yields a signed infinity or NaN, and the clamp
drives `chatbotWidth` to 5 (pointer right of the container left edge), 95
(pointer left of it) or NaN (pointer exactly on it). -/
theorem updateResize_guards (s : LayoutState) (refP contP : Bool) (x l w : JsNum) :
    (s.isResizing = false → handleMouseMove refP contP x l w s = s)
    ∧ (refP = false → handleMouseMove refP contP x l w s = s)
    ∧ (contP = false → handleMouseMove refP contP x l w s = s)
    ∧ (∀ a b : ℚ, s.isResizing = true → refP = true → contP = true →
        (handleMouseMove refP contP (.fin a) (.fin b) (.fin 0) s).chatbotWidth
          = if b < a then .fin 5 else if a < b then .fin 95 else .nan) := by
  refine ⟨fun h => ?_, fun h => ?_, fun h => ?_, fun a b h1 h2 h3 => ?_⟩
  · simp [handleMouseMove, h]
  · simp [handleMouseMove, h]
  · rw [handleMouseMove]
    split
    · rfl
    · simp [h]
  · have hgoal : (handleMouseMove refP contP (.fin a) (.fin b) (.fin 0) s).chatbotWidth
        = jsMax (.fin 5) (jsMin (.fin 95)
            (jsMul (jsDiv (.fin (0 - (a - b))) (.fin 0)) (.fin 100))) := by
      rw [handleMouseMove, h1, h2, h3]
      rfl
    rw [hgoal]
    rcases lt_trichotomy a b with hab | hab | hab
    · have h5 : jsDiv (.fin (0 - (a - b))) (.fin 0) = .inf := by
        rw [jsDiv, if_pos rfl, if_pos (by linarith : (0:ℚ) < 0 - (a - b))]
      have h6 : jsMul JsNum.inf (.fin 100) = .inf := by
        rw [jsMul, if_pos (by norm_num : (0:ℚ) < 100)]
      rw [h5, h6, if_neg (not_lt.mpr hab.le), if_pos hab]
      show JsNum.fin (max 5 95) = JsNum.fin 95
      rw [max_eq_right (by norm_num : (5:ℚ) ≤ 95)]
    · subst hab
      have hz : (0:ℚ) - (a - a) = 0 := by ring
      rw [hz]
      have h5 : jsDiv (.fin 0) (.fin 0) = .nan := by
        rw [jsDiv, if_pos rfl, if_neg (lt_irrefl (0:ℚ)), if_neg (lt_irrefl (0:ℚ))]
      rw [h5, if_neg (lt_irrefl a), if_neg (lt_irrefl a)]
      rfl
    · have h5 : jsDiv (.fin (0 - (a - b))) (.fin 0) = .ninf := by
        rw [jsDiv, if_pos rfl, if_neg (by linarith : ¬ (0:ℚ) < 0 - (a - b)),
          if_pos (by linarith : (0:ℚ) - (a - b) < 0)]
      have h6 : jsMul JsNum.ninf (.fin 100) = .ninf := by
        rw [jsMul, if_pos (by norm_num : (0:ℚ) < 100)]
      rw [h5, h6, if_pos hab]
      rfl

/-- C3 (counterexample): the claim says `updateResize` with a degenerate
container (`containerRect.width == 0`) leaves `chatWidthPercent` unchanged,
but with an open session, pointer at 10 and container left edge 0 and width
0, the code computes `(-10 / 0) * 100 = -Infinity` and clamps it to 5,
changing the width from 20 to 5. -/
theorem degenerate_container_not_noop :
    (handleMouseMove true true (.fin 10) (.fin 0) (.fin 0) resizingState).chatbotWidth = .fin 5
    ∧ resizingState.chatbotWidth = .fin 20
    ∧ JsNum.fin (5 : ℚ) ≠ JsNum.fin 20 := by
  refine ⟨?_, rfl, fun h => ?_⟩
  · have h4 := (updateResize_guards resizingState true true .nan .nan .nan).2.2.2 10 0 rfl rfl rfl
    rw [h4, if_pos (by norm_num : (0:ℚ) < 10)]
  · rw [JsNum.fin.injEq] at h
    norm_num at h

/-- C3 (witness): concrete instances of the no-op guard and of the
degenerate-container behaviour. -/
theorem updateResize_guards_witness :
    handleMouseMove true true (.fin 7) (.fin 0) (.fin 3)
        (⟨.fin 20, true, false, false, false, true⟩ : LayoutState)
      = ⟨.fin 20, true, false, false, false, true⟩
    ∧ (handleMouseMove true true (.fin 10) (.fin 0) (.fin 0) resizingState).chatbotWidth
      = (if (0:ℚ) < 10 then JsNum.fin 5 else if (10:ℚ) < 0 then JsNum.fin 95 else JsNum.nan) :=
  ⟨(updateResize_guards _ true true (.fin 7) (.fin 0) (.fin 3)).1 rfl,
    (updateResize_guards resizingState true true .nan .nan .nan).2.2.2 10 0 rfl rfl rfl⟩

theorem layoutStep_mutex (s : LayoutState) (op : LayoutOp)
    (h : (s.isAnalysisCollapsed && s.isChatbotCollapsed) = false) :
    ((layoutStep s op).isAnalysisCollapsed && (layoutStep s op).isChatbotCollapsed) = false := by
  cases op with
  | mouseMove refP contP x l w =>
    simp only [layoutStep, handleMouseMove]
    split
    · exact h
    split
    · exact h
    · exact h
  | mouseUp => exact h
  | separatorDown =>
    simp only [layoutStep, separatorMouseDown]
    split
    · exact h
    · exact h
  | collapseAnalysis => rfl
  | collapseChatbot => rfl
  | expandBoth => rfl
  | toggleVisible => exact h
  | windowResize w => exact h

theorem runLayout_mutex (s : LayoutState) (ops : List LayoutOp)
    (h : (s.isAnalysisCollapsed && s.isChatbotCollapsed) = false) :
    ((runLayout ops s).isAnalysisCollapsed && (runLayout ops s).isChatbotCollapsed) = false := by
  induction ops generalizing s with
  | nil => exact h
  | cons op ops ih => exact ih (layoutStep s op) (layoutStep_mutex s op h)

/-- C5 (confirmed): in every state reachable from construction the two
collapse flags are never both set (each collapse handler clears the other
flag), and collapsing analysis then collapsing the chatbot leaves
`isAnalysisCollapsed = false` and `isChatbotCollapsed = true`. -/
theorem collapse_flags_mutually_exclusive :
    (∀ (store : Store) (iw : ℚ) (ops : List LayoutOp),
      ((runLayout ops (appInit store iw)).isAnalysisCollapsed
        && (runLayout ops (appInit store iw)).isChatbotCollapsed) = false)
    ∧ ∀ s : LayoutState,
        (handleCollapseChatbot (handleCollapseAnalysis s)).isAnalysisCollapsed = false
        ∧ (handleCollapseChatbot (handleCollapseAnalysis s)).isChatbotCollapsed = true :=
  ⟨fun store iw ops => runLayout_mutex (appInit store iw) ops rfl,
    fun _ => ⟨rfl, rfl⟩⟩

/-- C8 (counterexample): the claim says a non-parseable persisted value falls
back to the compiled-in default, but a stored width `"abc"` yields
`parseFloat("abc") = NaN` (not the default 20) and a stored visibility
`"xyz"` yields `false` (not the default `true`). -/
theorem malformed_prefs_not_defaults :
    (appInit ⟨some "abc", some "xyz"⟩ 1280).chatbotWidth = .nan
    ∧ JsNum.nan ≠ JsNum.fin 20
    ∧ (appInit ⟨some "abc", some "xyz"⟩ 1280).isChatbotVisible = false :=
  ⟨rfl, fun h => JsNum.noConfusion h, rfl⟩

/-- C8 (amended): absent (or empty) persisted values fall back silently to
the compiled-in defaults (width 20, visible); a present non-parseable width
string is adopted as `parseFloat` leaves it — NaN — and a present visibility
string other than `"true"` becomes `false`; no error is raised in any case. -/
theorem prefs_fallback_behavior (w v : String) (iw : ℚ) (hw : w ≠ "") (hv : v ≠ "") :
    ((appInit ⟨none, none⟩ iw).chatbotWidth = .fin 20
      ∧ (appInit ⟨none, none⟩ iw).isChatbotVisible = true)
    ∧ (jsParseFloat w = .nan → (appInit ⟨some w, some v⟩ iw).chatbotWidth = .nan)
    ∧ (v ≠ "true" → (appInit ⟨some w, some v⟩ iw).isChatbotVisible = false) := by
  refine ⟨⟨rfl, rfl⟩, fun hp => ?_, fun hvt => ?_⟩
  · show (if w = "" then JsNum.fin 20 else jsParseFloat w) = .nan
    rw [if_neg hw, hp]
  · show (if v = "" then true else v == "true") = false
    rw [if_neg hv]
    exact beq_eq_false_iff_ne.mpr hvt

/-- C8 (witness): the fallback behaviour at the concrete store
`chatbotWidth = "abc"`, `chatbotVisible = "xyz"`. -/
theorem prefs_fallback_behavior_witness :
    ("abc" ≠ "") ∧ ("xyz" ≠ "") ∧ jsParseFloat "abc" = .nan ∧ ("xyz" ≠ "true")
    ∧ (appInit ⟨some "abc", some "xyz"⟩ 1280).chatbotWidth = .nan
    ∧ (appInit ⟨none, none⟩ 1280).chatbotWidth = .fin 20 :=
  ⟨by decide, by decide, rfl, by decide,
    (prefs_fallback_behavior "abc" "xyz" 1280 (by decide) (by decide)).2.1 rfl,
    (prefs_fallback_behavior "abc" "xyz" 1280 (by decide) (by decide)).1.1⟩

/-- C9 (confirmed): reconstructing the controller from a store written by
`persistPrefs` reproduces `chatbotWidth` and `isChatbotVisible`, for every
state whose width is NaN, an infinity, or a finite value with a terminating
decimal expansion (every actual JS number is of this shape). -/
theorem persisted_prefs_round_trip (s : LayoutState) (iw : ℚ) (h : decRepr s.chatbotWidth) :
    (appInit (persistPrefs s) iw).chatbotWidth = s.chatbotWidth
    ∧ (appInit (persistPrefs s) iw).isChatbotVisible = s.isChatbotVisible := by
  constructor
  · show loadWidth (some (jsToString s.chatbotWidth)) = s.chatbotWidth
    cases hsw : s.chatbotWidth with
    | nan => rfl
    | inf => rfl
    | ninf => rfl
    | fin q =>
      rw [hsw] at h
      show (if ratDecString q = "" then JsNum.fin 20 else jsParseFloat (ratDecString q))
        = .fin q
      rw [if_neg (ratDecString_ne_empty q)]
      exact jsParseFloat_ratDecString q h
  · show loadVisible (some (if s.isChatbotVisible then "true" else "false"))
      = s.isChatbotVisible
    cases s.isChatbotVisible with
    | true => rfl
    | false => rfl

/-- C9 (witness): the round trip at a concrete state persisting width 20 and
visibility `true`. -/
theorem persisted_prefs_round_trip_witness :
    decRepr ((⟨.fin 20, true, false, false, false, true⟩ : LayoutState).chatbotWidth)
    ∧ (appInit (persistPrefs ⟨.fin 20, true, false, false, false, true⟩) 800).chatbotWidth
      = .fin 20
    ∧ (appInit (persistPrefs ⟨.fin 20, true, false, false, false, true⟩) 800).isChatbotVisible
      = true := by
  have hd : decRepr ((⟨.fin 20, true, false, false, false, true⟩ : LayoutState).chatbotWidth) := by
    show 10 ^ ((20:ℚ)).den % ((20:ℚ)).den = 0
    decide
  exact ⟨hd, (persisted_prefs_round_trip _ 800 hd).1, (persisted_prefs_round_trip _ 800 hd).2⟩

/-! ### Combobox lemmas and claims -/

theorem jsIncludes_nil_needle (hay : List Char) : jsIncludes hay [] = true := by
  cases hay with
  | nil => rfl
  | cons c t => rfl

theorem filteredOptions_empty_query {O : Type} (labelOf : O → String) (opts : List O) :
    filteredOptions (fun o => .ok (labelOf o)) opts "" = opts := by
  rw [filteredOptions]
  refine List.filter_eq_self.mpr fun a _ => ?_
  exact jsIncludes_nil_needle _

/-- C4 (confirmed): the computed `filteredOptions` agrees with the
specification formula
`options.filter(o => labelOf(o).toLowerCase().includes(query.toLowerCase()))`
for a total label accessor, it is an in-order subsequence of `options`, and
for the empty query it is `options` itself, unchanged. -/
theorem filtered_options_characterization {O : Type} (labelOf : O → String)
    (opts : List O) (q : String) :
    filteredOptions (fun o => .ok (labelOf o)) opts q = filteredOptionsSpec labelOf opts q
    ∧ (filteredOptionsSpec labelOf opts q).Sublist opts
    ∧ filteredOptions (fun o => .ok (labelOf o)) opts "" = opts :=
  ⟨rfl, List.filter_sublist opts, filteredOptions_empty_query labelOf opts⟩

/-- C6 (amended): Escape, outside-click, and a completed commit (a click on
a rendered option, or Enter with a valid highlight) close the combobox and
reset `searchTerm` to `""` and `highlightedIndex` to `-1`; the other closing
paths (Enter with no highlight, the toggle click) close without resetting, so
`isOpen = false` does not imply a neutral query. -/
theorem combobox_close_resets (O V : Type) (labelOf : O → String) (valueOf : O → V)
    (opts : List O) (s : CbState) :
    cbStep labelOf valueOf false opts .keyEscape s = ⟨false, "", -1⟩
    ∧ cbStep labelOf valueOf false opts .outsideClick s = ⟨false, "", -1⟩
    ∧ (∀ i opt, s.isOpen = true →
        (filteredOptions (fun o => Except.ok (labelOf o)) opts s.searchTerm)[i]? = some opt →
        cbStep labelOf valueOf false opts (.optionClick i) s = ⟨false, "", -1⟩)
    ∧ (∀ opt, 0 ≤ s.highlightedIndex →
        (filteredOptions (fun o => Except.ok (labelOf o)) opts
          s.searchTerm)[s.highlightedIndex.toNat]? = some opt →
        cbStep labelOf valueOf false opts .keyEnter s = ⟨false, "", -1⟩) := by
  refine ⟨rfl, rfl, fun i opt hopen hsome => ?_, fun opt hge hsome => ?_⟩
  · simp only [cbStep, hopen, Bool.not_true, Bool.or_false, hsome]
    rfl
  · simp only [cbStep, if_pos hge, hsome]
    rfl

/-- C6 (counterexample): the claim says every closing operation resets the
query, in particular Enter while open with no highlight; but after focusing,
typing `"a"` and pressing Enter the widget is closed with `searchTerm` still
`"a"`. -/
theorem closed_with_stale_query :
    (cbRun (fun x : String => x) (fun x => x) false ["Alpha", "Beta"]
      [.focusInput, .inputChange "a", .keyEnter] cbInit).isOpen = false
    ∧ (cbRun (fun x : String => x) (fun x => x) false ["Alpha", "Beta"]
        [.focusInput, .inputChange "a", .keyEnter] cbInit).searchTerm = "a"
    ∧ ("a" : String) ≠ "" :=
  ⟨rfl, rfl, by decide⟩

/-- C6 (witness): concrete resets for Enter-with-highlight and Escape on a
one-option combobox. -/
theorem combobox_close_resets_witness :
    (0 : Int) ≤ (⟨true, "", 0⟩ : CbState).highlightedIndex
    ∧ (filteredOptions (fun o : String => Except.ok o) ["Alpha"]
        ((⟨true, "", 0⟩ : CbState).searchTerm))[((⟨true, "", 0⟩ :
          CbState).highlightedIndex).toNat]? = some "Alpha"
    ∧ cbStep (fun x => x) (fun x : String => x) false ["Alpha"] .keyEnter ⟨true, "", 0⟩
      = ⟨false, "", -1⟩
    ∧ cbStep (fun x => x) (fun x : String => x) false ["Alpha"] .keyEscape ⟨true, "", 0⟩
      = ⟨false, "", -1⟩ := by
  refine ⟨by decide, rfl, ?_, ?_⟩
  · exact (combobox_close_resets String String (fun x => x) (fun x => x) ["Alpha"]
      ⟨true, "", 0⟩).2.2.2 "Alpha" (by decide) rfl
  · exact (combobox_close_resets String String (fun x => x) (fun x => x) ["Alpha"]
      ⟨true, "", 0⟩).1

/-- C7 (amended): ArrowUp is never a no-op gate: regardless of the open
state it sets `highlightedIndex` to `max(highlightedIndex - 1, 0)` — so from
`-1` (no highlight) or `0` it lands on `0`, and from `i ≥ 1` it decrements —
leaving `isOpen` and the query unchanged. -/
theorem arrowUp_behavior {O V : Type} (labelOf : O → String) (valueOf : O → V)
    (opts : List O) (s : CbState) :
    (cbStep labelOf valueOf false opts .keyArrowUp s).highlightedIndex
      = max (s.highlightedIndex - 1) 0
    ∧ (cbStep labelOf valueOf false opts .keyArrowUp s).isOpen = s.isOpen
    ∧ (cbStep labelOf valueOf false opts .keyArrowUp s).searchTerm = s.searchTerm := by
  refine ⟨?_, rfl, rfl⟩
  show (if 0 < s.highlightedIndex then s.highlightedIndex - 1 else 0)
    = max (s.highlightedIndex - 1) 0
  split
  · omega
  · omega

/-- C7 (counterexample): the claim says ArrowUp is a no-op when the combobox
is closed with no highlight, but from the closed state with
`highlightedIndex = -1` the handler sets the highlight to `0`. -/
theorem arrowUp_when_closed_not_noop :
    (cbStep (fun x : String => x) (fun x => x) false ["Alpha", "Beta"] .keyArrowUp
      ⟨false, "", -1⟩).highlightedIndex = 0
    ∧ ((0 : Int) ≠ -1)
    ∧ (⟨false, "", -1⟩ : CbState).isOpen = false :=
  ⟨rfl, by decide, rfl⟩

/-- C10 (confirmed): if the value accessor throws during a commit the
exception is caught, the state is unchanged and `onChange` is never invoked;
if `onChange` itself throws the state is likewise unchanged (the close/reset
statements aborted). -/
theorem select_exception_leaves_state {O V : Type} (getOptionValue : O → Except Unit V)
    (onChange : V → Except Unit Unit) (s : CbState) (o : O) :
    (∀ e, getOptionValue o = .error e → handleSelect getOptionValue onChange s o = (s, []))
    ∧ (∀ v e, getOptionValue o = .ok v → onChange v = .error e →
        handleSelect getOptionValue onChange s o = (s, [v])) := by
  constructor
  · intro e he
    rw [handleSelect, he]
  · intro v e hv hc
    rw [handleSelect, hv]
    show (match onChange v with
      | Except.error _ => (s, [v])
      | Except.ok _ => ((⟨false, "", -1⟩ : CbState), [v])) = (s, [v])
    rw [hc]

/-- C10 (witness): a throwing value accessor and a throwing change callback
on a concrete unit-typed combobox each leave the initial state intact. -/
theorem select_exception_leaves_state_witness :
    handleSelect (fun _ : Unit => (Except.error () : Except Unit Unit))
        (fun _ : Unit => Except.ok ()) cbInit () = (cbInit, [])
    ∧ handleSelect (fun _ : Unit => (Except.ok () : Except Unit Unit))
        (fun _ : Unit => (Except.error () : Except Unit Unit)) cbInit () = (cbInit, [()]) :=
  ⟨(select_exception_leaves_state _ _ cbInit ()).1 () rfl,
    (select_exception_leaves_state _ _ cbInit ()).2 () () rfl rfl⟩

end OrbitMeet
